import Mathlib

/-!
Verification of the response-text core of `isahc` (`src/response.rs`):
the encoding resolver `get_encoding` and the streaming decode loops in
`ResponseExt::text` / `ResponseExt::text_async`.

Embedding conventions:
* Bytes are `Nat` (values `< 256` in practice; nothing below depends on a bound).
* A response is modelled by its header list (name, raw value bytes) plus the
  sequence of read events its body produces.
* The body stream is a list of `ReadEvent`s; after the list is exhausted every
  further `read` returns `Ok(0)` (end of stream), which is how both loops stop.
* The incremental decoder of `encoding_rs` is modelled as this program calls
  it: `Decoder::decode_to_string` writes only into the spare capacity of the
  destination `String`, and both loops pass a `String::new()` whose capacity
  is never reserved, so every call returns `CoderResult::OutputFull` having
  consumed no input and appended no output, and the decoder state never
  changes.  The reference WHATWG UTF-8 decode algorithm (`decodeCore`) is
  kept separately: it gives the payload of `read_to_string` on valid bytes
  and states which string a byte sequence encodes.
* A Rust panic (the `.unwrap()` on the resolver result) is modelled as the
  distinguished outcome `TextError.panicked`.
-/

/-- The Unicode replacement character U+FFFD, the WHATWG replacement for
malformed byte sequences. -/
def repl : Char := Char.ofNat 0xFFFD

/-- Whether a byte is a valid UTF-8 continuation byte (`0x80..0xBF`). -/
def contOk (b : Nat) : Bool := decide (0x80 ≤ b) && decide (b < 0xC0)

/-- Lower bound of the valid second byte for a given lead byte (WHATWG UTF-8:
`E0` requires `A0..`, `F0` requires `90..`, otherwise `80..`). -/
def c2lo (lead : Nat) : Nat :=
  if lead = 0xE0 then 0xA0 else if lead = 0xF0 then 0x90 else 0x80

/-- Exclusive upper bound of the valid second byte for a given lead byte
(WHATWG UTF-8: `ED` allows `..9F`, `F4` allows `..8F`, otherwise `..BF`). -/
def c2hi (lead : Nat) : Nat :=
  if lead = 0xED then 0xA0 else if lead = 0xF4 then 0x90 else 0xC0

/-- Whether `b` is a valid second byte of a sequence led by `lead`. -/
def cont2Ok (lead b : Nat) : Bool := decide (c2lo lead ≤ b) && decide (b < c2hi lead)

/-- One pass of the reference WHATWG UTF-8 decoder with replacement (the
algorithm the `encoding_rs` UTF-8 decoder implements when it has output space
to write into): decodes as many complete sequences as possible from the front,
emitting `repl` for malformed input (resuming at the offending byte), and
returns the decoded characters together with the pending bytes of a trailing
incomplete-but-so-far-valid sequence.  In this development it supplies the
payload of `read_to_string` on valid bytes and states which string a byte
sequence encodes; it is not the per-chunk step the program's decode loops
achieve (see `UTF_8`). -/
def decodeCore : List Nat → List Char × List Nat
  | [] => ([], [])
  | b :: rest =>
    if b < 0x80 then
      let r := decodeCore rest
      (Char.ofNat b :: r.1, r.2)
    else if b < 0xC2 then
      let r := decodeCore rest
      (repl :: r.1, r.2)
    else if b < 0xE0 then
      match rest with
      | [] => ([], [b])
      | b1 :: rest1 =>
        if contOk b1 then
          let r := decodeCore rest1
          (Char.ofNat ((b - 0xC0) * 0x40 + (b1 - 0x80)) :: r.1, r.2)
        else
          let r := decodeCore (b1 :: rest1)
          (repl :: r.1, r.2)
    else if b < 0xF0 then
      match rest with
      | [] => ([], [b])
      | b1 :: rest1 =>
        if cont2Ok b b1 then
          match rest1 with
          | [] => ([], [b, b1])
          | b2 :: rest2 =>
            if contOk b2 then
              let r := decodeCore rest2
              (Char.ofNat ((b - 0xE0) * 0x1000 + (b1 - 0x80) * 0x40 + (b2 - 0x80)) :: r.1,
               r.2)
            else
              let r := decodeCore (b2 :: rest2)
              (repl :: r.1, r.2)
        else
          let r := decodeCore (b1 :: rest1)
          (repl :: r.1, r.2)
    else if b < 0xF5 then
      match rest with
      | [] => ([], [b])
      | b1 :: rest1 =>
        if cont2Ok b b1 then
          match rest1 with
          | [] => ([], [b, b1])
          | b2 :: rest2 =>
            if contOk b2 then
              match rest2 with
              | [] => ([], [b, b1, b2])
              | b3 :: rest3 =>
                if contOk b3 then
                  let r := decodeCore rest3
                  (Char.ofNat
                      ((b - 0xF0) * 0x40000 + (b1 - 0x80) * 0x1000 +
                        (b2 - 0x80) * 0x40 + (b3 - 0x80)) :: r.1,
                   r.2)
                else
                  let r := decodeCore (b3 :: rest3)
                  (repl :: r.1, r.2)
            else
              let r := decodeCore (b2 :: rest2)
              (repl :: r.1, r.2)
        else
          let r := decodeCore (b1 :: rest1)
          (repl :: r.1, r.2)
    else
      let r := decodeCore rest
      (repl :: r.1, r.2)

/-- UTF-8 encoding of a single character (scalar value, so never a surrogate). -/
def utf8EncodeChar (c : Char) : List Nat :=
  let n := c.toNat
  if n < 0x80 then [n]
  else if n < 0x800 then [0xC0 + n / 0x40, 0x80 + n % 0x40]
  else if n < 0x10000 then
    [0xE0 + n / 0x1000, 0x80 + n / 0x40 % 0x40, 0x80 + n % 0x40]
  else
    [0xF0 + n / 0x40000, 0x80 + n / 0x1000 % 0x40, 0x80 + n / 0x40 % 0x40,
     0x80 + n % 0x40]

/-- UTF-8 encoding of a character list. -/
def utf8Encode : List Char → List Nat
  | [] => []
  | c :: cs => utf8EncodeChar c ++ utf8Encode cs

/-- UTF-8 encoding of a string's characters. -/
def utf8EncodeString (s : String) : List Nat := utf8Encode s.data

/-- Strict UTF-8 validity of a byte list (what `std::io::Read::read_to_string`
checks before returning the bytes as a `String`). -/
def validUtf8 : List Nat → Bool
  | [] => true
  | b :: rest =>
    if b < 0x80 then validUtf8 rest
    else if b < 0xC2 then false
    else if b < 0xE0 then
      match rest with
      | b1 :: rest1 => contOk b1 && validUtf8 rest1
      | [] => false
    else if b < 0xF0 then
      match rest with
      | b1 :: b2 :: rest2 => cont2Ok b b1 && contOk b2 && validUtf8 rest2
      | _ => false
    else if b < 0xF5 then
      match rest with
      | b1 :: b2 :: b3 :: rest3 =>
        cont2Ok b b1 && contOk b2 && contOk b3 && validUtf8 rest3
      | _ => false
    else false

/-- An encoding selector together with its incremental decode step, one call
of `Decoder::decode_to_string` as this program performs it: given the decoder
state (pending bytes of an incomplete sequence) and the new chunk, it returns
the characters appended to the output string and the new decoder state. -/
structure Encoding where
  name : String
  step : List Nat → List Nat → List Char × List Nat

/-- The UTF-8 encoding selector (`encoding_rs::UTF_8`) with the decode step as
the source actually exercises it: `decode_to_string` writes only into the
spare capacity of the destination `String`, and both loops pass the `String`
created by `String::new()` at response.rs lines 133/177 whose capacity is
never reserved (and can never grow, since nothing is ever appended), so every
call returns `CoderResult::OutputFull` immediately, consumes no input and
appends no characters, leaving the decoder state unchanged.  The loops ignore
this result (`_ => {}`), discard the chunk, and read on. -/
def UTF_8 : Encoding :=
  ⟨"UTF-8", fun pending _bs => ([], pending)⟩

/-- One event produced by a `read` call on the body stream: a chunk of bytes
(`Ok(len)`, where an empty chunk is `Ok(0)`, i.e. end of stream), a transient
`ErrorKind::Interrupted` failure, or any other I/O error (identified by a
numeric code). -/
inductive ReadEvent where
  | chunk : List Nat → ReadEvent
  | interrupted : ReadEvent
  | ioError : Nat → ReadEvent
deriving DecidableEq

/-- The decode loop of `ResponseExt::text` (response.rs lines 137-156), with
the decoder state `pending` and accumulated output `acc` made explicit:
* end of events, or a zero-length read, breaks the loop and returns `Ok(string)`
  (the source never issues a final decode call with the last-chunk flag set);
* a nonempty chunk is fed to `decoder.decode_to_string(&buf[..len], &mut string,
  false)` whose result is ignored (both match arms of the source are empty);
* `ErrorKind::Interrupted` is retried via `continue`;
* any other error returns `Err(e.into())`. -/
def textLoop (step : List Nat → List Nat → List Char × List Nat) :
    List Nat → String → List ReadEvent → Except Nat String
  | _pending, acc, [] => .ok acc
  | pending, acc, ev :: rest =>
    match ev with
    | .chunk [] => .ok acc
    | .chunk (b :: bs) =>
      let r := step pending (b :: bs)
      textLoop step r.2 (acc ++ String.mk r.1) rest
    | .interrupted => textLoop step pending acc rest
    | .ioError e => .error e

/-- The decode loop of `ResponseExt::text_async` (response.rs lines 181-198).
The source is a line-for-line copy of the blocking loop with `read(..)` replaced
by `read(..).await`; it is embedded separately so the two paths can be compared. -/
def textAsyncLoop (step : List Nat → List Nat → List Char × List Nat) :
    List Nat → String → List ReadEvent → Except Nat String
  | _pending, acc, [] => .ok acc
  | pending, acc, ev :: rest =>
    match ev with
    | .chunk [] => .ok acc
    | .chunk (b :: bs) =>
      let r := step pending (b :: bs)
      textAsyncLoop step r.2 (acc ++ String.mk r.1) rest
    | .interrupted => textAsyncLoop step pending acc rest
    | .ioError e => .error e

/-- A header map entry: field name and raw value bytes. -/
def Headers : Type := List (String × List Nat)

/-- ASCII lowercasing of one character (header names and MIME tokens are
case-insensitive ASCII). -/
def asciiLowerChar (c : Char) : Char :=
  if 'A' ≤ c && c ≤ 'Z' then Char.ofNat (c.toNat + 32) else c

/-- ASCII lowercasing of a character list. -/
def asciiLower (cs : List Char) : List Char := cs.map asciiLowerChar

/-- Split a character list on a separator character; always returns at least
one (possibly empty) group. -/
def splitOnChar (sep : Char) : List Char → List (List Char)
  | [] => [[]]
  | c :: rest =>
    let r := splitOnChar sep rest
    if c = sep then [] :: r
    else
      match r with
      | [] => [[c]]
      | g :: gs => (c :: g) :: gs

/-- Whether a character is linear whitespace (space or horizontal tab). -/
def isSpaceChar (c : Char) : Bool := c = ' ' || c = '\t'

/-- Trim linear whitespace from both ends of a character list. -/
def trimChars (cs : List Char) : List Char :=
  ((cs.dropWhile isSpaceChar).reverse.dropWhile isSpaceChar).reverse

/-- Case-insensitive lookup of the first header with the given (lowercase)
name, as `HeaderMap::get(CONTENT_TYPE)` performs. -/
def headerGet (headers : Headers) (lowerName : String) : Option (List Nat) :=
  match headers with
  | [] => none
  | (n, v) :: rest =>
    if asciiLower n.data = lowerName.data then some v else headerGet rest lowerName

/-- `HeaderValue::to_str`: succeeds only when every byte is visible ASCII
(or space/tab), yielding the value as a string. -/
def headerValueToStr (v : List Nat) : Option String :=
  if v.all fun b => b = 9 || (32 ≤ b && b ≤ 126) then
    some (String.mk (v.map Char.ofNat))
  else
    none

/-- Whether a character may appear in an HTTP token (media type names and
parameter names/values).  Modelled from the `mime` crate's token grammar. -/
def isTokenChar (c : Char) : Bool :=
  c.isAlphanum || c = '-' || c = '+' || c = '.' || c = '_' || c = '*'

/-- Whether a character list is a nonempty HTTP token. -/
def isToken (cs : List Char) : Bool :=
  !cs.isEmpty && cs.all isTokenChar

/-- A parsed MIME value: essence (type/subtype) and parameters, all stored as
lowercase character lists. -/
structure Mime where
  essence : List Char
  params : List (List Char × List Char)

/-- Split a parameter clause `name=value` into a pair, or fail. -/
def parseParam (cs : List Char) : Option (List Char × List Char) :=
  match splitOnChar '=' cs with
  | [n, v] =>
    let n := asciiLower (trimChars n)
    let v := trimChars v
    if isToken n && isToken v then some (n, v) else none
  | _ => none

/-- Collect `;`-separated parameter clauses, failing on the first malformed one. -/
def parseParams : List (List Char) → Option (List (List Char × List Char))
  | [] => some []
  | p :: rest =>
    match parseParam p, parseParams rest with
    | some kv, some kvs => some (kv :: kvs)
    | _, _ => none

/-- Modelled from the `mime` crate (an external collaborator of response.rs):
`str::parse::<mime::Mime>` parses `type/subtype` optionally followed by
`;`-separated `name=value` parameters, case-insensitively for names. -/
def parseMime (s : String) : Option Mime :=
  match splitOnChar ';' s.data with
  | [] => none
  | essence :: paramClauses =>
    match splitOnChar '/' (asciiLower (trimChars essence)) with
    | [ty, sub] =>
      if isToken ty && isToken sub then
        match parseParams paramClauses with
        | some kvs => some ⟨ty ++ '/' :: sub, kvs⟩
        | none => none
      else none
    | _ => none

/-- `encoding_rs::Encoding::for_label` restricted to the labels this
development models: every label of UTF-8 maps to the UTF-8 selector.  (This
function is only reachable from the dangling charset chain in the source,
which is disconnected; see `get_encoding`.) -/
def for_label (label : List Char) : Option Encoding :=
  let l := asciiLower (trimChars label)
  if l = "utf-8".data || l = "utf8".data || l = "unicode-1-1-utf-8".data then some UTF_8
  else none

/-- `get_encoding` (response.rs lines 216-240), translated statement by
statement:
* no content-type header: the `?` operator returns `None` (line 217);
* `to_str` failure: logs a warning and returns `None` (lines 219-225);
* `parse::<mime::Mime>` failure: logs a warning and returns `None`
  (lines 227-233);
* after a successful parse, the charset-extraction chain at lines 235-238
  (`.and_then(|mime| mime.get_param("charset")) ... .unwrap_or(UTF_8)`) begins
  with a dangling `.` and is not connected to the parsed `content_type` value
  or to any return path, and the function's final statement (line 239) is the
  unconditional `None`. -/
def get_encoding (headers : Headers) : Option Encoding :=
  match headerGet headers "content-type" with
  | none => none
  | some v =>
    match headerValueToStr v with
    | none => none
    | some s =>
      match parseMime s with
      | none => none
      | some _mime => none

/-- The outcome of `text`/`text_async` as observed by the caller: a panic
(from `.unwrap()` on `None`), an I/O error, or the decoded string. -/
inductive TextError where
  | panicked : TextError
  | io : Nat → TextError
deriving DecidableEq

/-- `ResponseExt::text` with the `encoding` feature enabled (response.rs lines
127-157): resolves the encoding with `get_encoding(self).unwrap()` — a panic
when the resolver returns `None` — then runs the decode loop over the body. -/
def text (headers : Headers) (body : List ReadEvent) : Except TextError String :=
  match get_encoding headers with
  | none => .error .panicked
  | some enc =>
    match textLoop enc.step [] "" body with
    | .ok s => .ok s
    | .error e => .error (.io e)

/-- `ResponseExt::text_async` (response.rs lines 170-202): identical to `text`
except that reads suspend instead of blocking. -/
def text_async (headers : Headers) (body : List ReadEvent) : Except TextError String :=
  match get_encoding headers with
  | none => .error .panicked
  | some enc =>
    match textAsyncLoop enc.step [] "" body with
    | .ok s => .ok s
    | .error e => .error (.io e)

/-- The error returned by `ResponseExt::text` without the `encoding` feature:
`read_to_string` fails with `InvalidData` on non-UTF-8 bytes, or propagates an
underlying I/O error. -/
inductive RtsError where
  | invalidData : RtsError
  | ioFail : Nat → RtsError
deriving DecidableEq

/-- Drain the body stream into its byte sequence, as `read_to_string`'s inner
read loop does: retry `Interrupted`, stop at end of stream, fail on any other
error. -/
def gatherBytes : List ReadEvent → Except Nat (List Nat)
  | [] => .ok []
  | ev :: rest =>
    match ev with
    | .chunk [] => .ok []
    | .chunk (b :: bs) =>
      match gatherBytes rest with
      | .ok tail => .ok ((b :: bs) ++ tail)
      | .error e => .error e
    | .interrupted => gatherBytes rest
    | .ioError e => .error e

/-- `ResponseExt::text` with the `encoding` feature disabled (response.rs lines
159-168): `read_to_string` reads the whole body and returns it as a string only
when the bytes are valid UTF-8, otherwise it fails with an `InvalidData` error
and no replacement characters are ever inserted. -/
def textNoEncoding (body : List ReadEvent) : Except RtsError String :=
  match gatherBytes body with
  | .error e => .error (.ioFail e)
  | .ok bs =>
    if validUtf8 bs then .ok (String.mk (decodeCore bs).1)
    else .error .invalidData

/-- ASCII bytes of a string, for writing concrete header values. -/
def strBytes (s : String) : List Nat := s.data.map Char.toNat

/-- Concatenation of a chunk list into the underlying byte sequence. -/
def joinChunks : List (List Nat) → List Nat
  | [] => []
  | c :: cs => c ++ joinChunks cs

/-- Whether a read event lets the decode loop proceed to later events: a
nonempty chunk or a transient interruption (an empty chunk ends the loop, an
I/O error aborts it). -/
def eventActive : ReadEvent → Bool
  | .chunk [] => false
  | .chunk (_ :: _) => true
  | .interrupted => true
  | .ioError _ => false

/-! ### Step equations for the decode loops -/

theorem textLoop_nil (step : List Nat → List Nat → List Char × List Nat) (p : List Nat)
    (acc : String) : textLoop step p acc [] = .ok acc := rfl

theorem textLoop_chunk_nil (step : List Nat → List Nat → List Char × List Nat) (p : List Nat)
    (acc : String) (rest : List ReadEvent) :
    textLoop step p acc (.chunk [] :: rest) = .ok acc := rfl

theorem textLoop_chunk_cons (step : List Nat → List Nat → List Char × List Nat) (p : List Nat)
    (acc : String) (b : Nat) (bs : List Nat) (rest : List ReadEvent) :
    textLoop step p acc (.chunk (b :: bs) :: rest) =
      textLoop step (step p (b :: bs)).2 (acc ++ String.mk (step p (b :: bs)).1) rest := rfl

theorem textLoop_interrupted (step : List Nat → List Nat → List Char × List Nat) (p : List Nat)
    (acc : String) (rest : List ReadEvent) :
    textLoop step p acc (.interrupted :: rest) = textLoop step p acc rest := rfl

theorem textLoop_ioError (step : List Nat → List Nat → List Char × List Nat) (p : List Nat)
    (acc : String) (e : Nat) (rest : List ReadEvent) :
    textLoop step p acc (.ioError e :: rest) = .error e := rfl

/-- The async loop is step-for-step the same function as the blocking loop. -/
theorem textAsyncLoop_eq_textLoop (step : List Nat → List Nat → List Char × List Nat)
    (p : List Nat) (acc : String) (evs : List ReadEvent) :
    textAsyncLoop step p acc evs = textLoop step p acc evs := by
  induction evs generalizing p acc with
  | nil => rfl
  | cons ev rest ih =>
    cases ev with
    | chunk bs =>
      cases bs with
      | nil => rfl
      | cons b bs' => exact ih _ _
    | interrupted => exact ih _ _
    | ioError e => rfl

/-- Deleting an interrupted read anywhere in the stream leaves the blocking
loop's result unchanged. -/
theorem textLoop_drop_interrupted (step : List Nat → List Nat → List Char × List Nat)
    (pre post : List ReadEvent) (p : List Nat) (acc : String) :
    textLoop step p acc (pre ++ ReadEvent.interrupted :: post) =
      textLoop step p acc (pre ++ post) := by
  induction pre generalizing p acc with
  | nil => rw [List.nil_append, List.nil_append, textLoop_interrupted]
  | cons ev rest ih =>
    cases ev with
    | chunk bs =>
      cases bs with
      | nil => rw [List.cons_append, textLoop_chunk_nil, List.cons_append, textLoop_chunk_nil]
      | cons b bs' =>
        rw [List.cons_append, textLoop_chunk_cons, List.cons_append, textLoop_chunk_cons]
        exact ih _ _
    | interrupted =>
      rw [List.cons_append, textLoop_interrupted, List.cons_append, textLoop_interrupted]
      exact ih _ _
    | ioError e =>
      rw [List.cons_append, textLoop_ioError, List.cons_append, textLoop_ioError]

/-- If every event before an I/O error keeps the loop going, the loop returns
exactly that error, with all accumulated text discarded. -/
theorem textLoop_error_aborts (step : List Nat → List Nat → List Char × List Nat)
    (pre : List ReadEvent) (n : Nat) (post : List ReadEvent) (p : List Nat) (acc : String)
    (h : pre.all eventActive = true) :
    textLoop step p acc (pre ++ ReadEvent.ioError n :: post) = .error n := by
  induction pre generalizing p acc with
  | nil => rw [List.nil_append, textLoop_ioError]
  | cons ev rest ih =>
    rw [List.all_cons, Bool.and_eq_true] at h
    cases ev with
    | chunk bs =>
      cases bs with
      | nil => exact absurd h.1 (by simp [eventActive])
      | cons b bs' =>
        rw [List.cons_append, textLoop_chunk_cons]
        exact ih _ _ h.2
    | interrupted =>
      rw [List.cons_append, textLoop_interrupted]
      exact ih _ _ h.2
    | ioError e => exact absurd h.1 (by simp [eventActive])

/-- Every branch of `get_encoding` returns `None`. -/
theorem get_encoding_none (headers : Headers) : get_encoding headers = none := by
  unfold get_encoding
  split
  · rfl
  split
  · rfl
  split
  · rfl
  · rfl

/-! ### Claim theorems -/

/-- Claim C1 (refuted by the code): for a response with no content-type
header, encoding resolution does not return the UTF-8 selector and `text`
does not proceed without error — `get_encoding` returns `None` on every
branch and the `.unwrap()` in `text` panics. -/
theorem text_panics_without_content_type :
    get_encoding [] = none ∧
    text [] [] = Except.error TextError.panicked ∧
    text_async [] [] = Except.error TextError.panicked :=
  ⟨rfl, rfl, rfl⟩

/-- Claim C2 (refuted by the code): for the header value
`text/plain; charset=ISO-8859-1` — which parses as a MIME value — the
resolver does not return the ISO-8859-1 selector: it returns `None`, and
`text` on such a response panics at the `.unwrap()`. -/
theorem get_encoding_iso_8859_1_none :
    get_encoding [("Content-Type", strBytes "text/plain; charset=ISO-8859-1")] = none ∧
    (parseMime "text/plain; charset=ISO-8859-1").isSome = true ∧
    text [("Content-Type", strBytes "text/plain; charset=ISO-8859-1")]
        [ReadEvent.chunk (strBytes "abc")] = Except.error TextError.panicked :=
  ⟨rfl, by decide, rfl⟩

/-- Claim C3 (refuted by the code): the body bytes
`[104, 195] / [169, 108, 108, 111]` are exactly the UTF-8 encoding of "héllo"
split inside the two-byte encoding of é (a valid encoding, as the reference
decode confirms), yet both loops return `Ok ""`, not `Ok "héllo"`: every
`decode_to_string` call lands on the never-reserved `String::new()`, returns
`OutputFull` having consumed and produced nothing, and this result is
ignored, so the whole body is discarded. -/
theorem valid_body_decodes_to_empty :
    joinChunks [[104, 195], [169, 108, 108, 111]] = utf8EncodeString "héllo" ∧
    decodeCore (utf8EncodeString "héllo") = ("héllo".data, []) ∧
    textLoop UTF_8.step [] ""
        ([[104, 195], [169, 108, 108, 111]].map ReadEvent.chunk) = Except.ok "" ∧
    textAsyncLoop UTF_8.step [] ""
        ([[104, 195], [169, 108, 108, 111]].map ReadEvent.chunk) = Except.ok "" :=
  ⟨by decide, by decide, rfl, rfl⟩

/-- Claim C4 (refuted by the code): for a body ending in the middle of the
two-byte encoding of é, both loops return `Ok ""` — no replacement character
ever appears at the truncated position.  The loops break on end of stream
without ever calling the decoder with the last-chunk flag set, and in any
case every `decode_to_string` call on the never-reserved output string
consumes and produces nothing, so even the decodable prefix "h" is lost. -/
theorem truncated_tail_dropped :
    textLoop UTF_8.step [] "" [ReadEvent.chunk [104, 195]] = Except.ok "" ∧
    textAsyncLoop UTF_8.step [] "" [ReadEvent.chunk [104, 195]] = Except.ok "" :=
  ⟨rfl, rfl⟩

/-- Claim C5: the blocking and asynchronous decode paths agree on every input:
the loops are pointwise equal for every step function, state and event list,
and `text`/`text_async` agree on every response. -/
theorem blocking_async_paths_agree :
    (∀ (step : List Nat → List Nat → List Char × List Nat) (pending : List Nat)
        (acc : String) (evs : List ReadEvent),
      textAsyncLoop step pending acc evs = textLoop step pending acc evs) ∧
    (∀ (headers : Headers) (body : List ReadEvent),
      text_async headers body = text headers body) := by
  refine ⟨textAsyncLoop_eq_textLoop, ?_⟩
  intro hs body
  unfold text text_async
  rw [get_encoding_none]

/-- Claim C6: an interrupted read at any point of the stream — including
before the first chunk — is retried with no observable effect: both loops
return exactly what they return on the same stream without the interruption. -/
theorem interrupted_read_invisible (step : List Nat → List Nat → List Char × List Nat)
    (pending : List Nat) (acc : String) (pre post : List ReadEvent) :
    textLoop step pending acc (pre ++ ReadEvent.interrupted :: post) =
      textLoop step pending acc (pre ++ post) ∧
    textAsyncLoop step pending acc (pre ++ ReadEvent.interrupted :: post) =
      textAsyncLoop step pending acc (pre ++ post) := by
  refine ⟨textLoop_drop_interrupted step pre post pending acc, ?_⟩
  rw [textAsyncLoop_eq_textLoop, textAsyncLoop_eq_textLoop]
  exact textLoop_drop_interrupted step pre post pending acc

/-- Claim C7: a non-interrupted I/O error at any reachable point makes both
loops return that single error; the text accumulated before the failure is
discarded — the caller sees an error value carrying no partial text. -/
theorem read_error_all_or_nothing (step : List Nat → List Nat → List Char × List Nat)
    (pre : List ReadEvent) (n : Nat) (post : List ReadEvent) (pending : List Nat)
    (acc : String) (h : pre.all eventActive = true) :
    textLoop step pending acc (pre ++ ReadEvent.ioError n :: post) = Except.error n ∧
    textAsyncLoop step pending acc (pre ++ ReadEvent.ioError n :: post) =
      Except.error n := by
  refine ⟨textLoop_error_aborts step pre n post pending acc h, ?_⟩
  rw [textAsyncLoop_eq_textLoop]
  exact textLoop_error_aborts step pre n post pending acc h

/-- Witness for C7: after one successful chunk, an I/O error with code 7 makes
the blocking loop return exactly `Except.error 7`. -/
theorem read_error_all_or_nothing_witness :
    ([ReadEvent.chunk [104]].all eventActive = true) ∧
    textLoop UTF_8.step [] "" [ReadEvent.chunk [104], ReadEvent.ioError 7] =
      Except.error 7 :=
  ⟨rfl, (read_error_all_or_nothing UTF_8.step [ReadEvent.chunk [104]] 7 [] [] "" rfl).1⟩

/-- Claim C8: a zero-length body — the first read immediately signals end of
stream, whether as an exhausted stream or an explicit zero-length read —
yields `Ok ""` from both loops, for every step function and decoder state. -/
theorem empty_body_yields_empty_string (step : List Nat → List Nat → List Char × List Nat)
    (pending : List Nat) :
    textLoop step pending "" [] = Except.ok "" ∧
    textLoop step pending "" [ReadEvent.chunk []] = Except.ok "" ∧
    textAsyncLoop step pending "" [] = Except.ok "" ∧
    textAsyncLoop step pending "" [ReadEvent.chunk []] = Except.ok "" :=
  ⟨rfl, rfl, rfl, rfl⟩

/-- Claim C9: `get_encoding` returns `None` for every response — including one
with a well-formed content-type carrying a recognized charset — so the
`.unwrap()` in `text` and `text_async` panics on every call. -/
theorem get_encoding_always_none_unwrap_panics :
    (∀ headers : Headers, get_encoding headers = none) ∧
    (∀ (headers : Headers) (body : List ReadEvent),
      text headers body = Except.error TextError.panicked ∧
      text_async headers body = Except.error TextError.panicked) ∧
    get_encoding [("Content-Type", strBytes "text/plain; charset=utf-8")] = none := by
  refine ⟨get_encoding_none, ?_, rfl⟩
  intro hs body
  constructor
  · unfold text
    rw [get_encoding_none]
  · unfold text_async
    rw [get_encoding_none]

/-- Claim C10: with the `encoding` feature disabled, `text` reads the body via
`read_to_string`, so a body whose bytes are not valid UTF-8 produces an
`InvalidData` error instead of replacement characters. -/
theorem invalid_utf8_body_errors (body : List ReadEvent) (bs : List Nat)
    (hbytes : gatherBytes body = Except.ok bs)
    (hinvalid : validUtf8 bs = false) :
    textNoEncoding body = Except.error RtsError.invalidData := by
  unfold textNoEncoding
  rw [hbytes]
  simp [hinvalid]

/-- Witness for C10: the single byte `0xFF` is not valid UTF-8 and makes the
feature-disabled `text` return `InvalidData`. -/
theorem invalid_utf8_body_errors_witness :
    gatherBytes [ReadEvent.chunk [255]] = Except.ok [255] ∧
    validUtf8 [255] = false ∧
    textNoEncoding [ReadEvent.chunk [255]] = Except.error RtsError.invalidData :=
  ⟨rfl, rfl, invalid_utf8_body_errors [ReadEvent.chunk [255]] [255] rfl rfl⟩
